import Mathlib

deriving instance DecidableEq for Except

/-!
Verification of the shellscan SYN scanner (src/main.go, src/scanner.go).

The development shallowly embeds the scan engine: the ARP resolution loop
of DestMACAddress, the SYN-probe receive loop of ScanAddress, the banner
line computation, the report formatting, the goroutine body of main, and
the CIDR expansion helpers expand and remove.  Machine bytes are Nat with
explicit % 256 arithmetic; fallible operations return Except; the receive
loops are modelled as recursion over a finite trace of read events, where
each event records the wall-clock value observed at the loop's deadline
check and the outcome of the subsequent ReadPacketData call.  A trace that
runs out of events yields none: the real loop would keep blocking on the
capture handle.
-/

namespace ShellScan

/-- Probe and resolution deadline: time.Second * 3 from scanner.go, in
milliseconds. -/
def deadline : Nat := 3000

/-- Fixed probe source port, scanner.go line 123. -/
def probeSrcPort : Nat := 63323

/-- Fixed probe destination port, scanner.go line 124. -/
def probeDstPort : Nat := 22

/-- Decoded view of a captured frame as inspected by ScanAddress
(scanner.go lines 164-172): whether packet.NetworkLayer() is non-nil, the
endpoint type and the two endpoints of its NetworkFlow() (order matters:
gopacket flow equality compares source with source and destination with
destination), whether a TCP layer is present, and that layer's ports and
SYN/ACK flags.  IP addresses are abstracted to Nat. -/
structure Frame where
  hasNet : Bool
  netType : Nat
  flowSrc : Nat
  flowDst : Nat
  hasTCP : Bool
  srcPort : Nat
  dstPort : Nat
  syn : Bool
  ack : Bool
  deriving DecidableEq

/-- Outcome of one PCAPHandle.ReadPacketData call in the probe loop:
a pcap.NextErrorTimeoutExpired, any other read error (with its message),
or a captured frame. -/
inductive ReadResult where
  | timeout : ReadResult
  | readErr : String → ReadResult
  | frame : Frame → ReadResult
  deriving DecidableEq

/-- One iteration of the ScanAddress loop (scanner.go lines 136-192):
`sendTime` is the time.Now() taken if a send is attempted this iteration,
`sendOk` whether that SendPacket call would succeed, `checkTime` the
wall-clock value at the time.Since deadline check, and `read` the result
of ReadPacketData. -/
structure Step where
  sendTime : Nat
  sendOk : Bool
  checkTime : Nat
  read : ReadResult
  deriving DecidableEq

/-- Result of the probe: the Open verdict carries the source port of the
matched reply frame, which is what line 187 prints. -/
inductive Verdict where
  | openPort : Nat → Verdict
  | closedPort : Verdict
  deriving DecidableEq

/-- The match condition of scanner.go lines 170-172: network layer
present, network flow equal (endpoint type and both endpoints, in order)
to the expected reply flow gopacket.NewFlow(EndpointIPv4, DestIP,
SourceIP), TCP layer present, destination port 63323, SYN and ACK set.
`destIP` and `srcIP` are the scanner's DestIP and SourceIP; 4 encodes
layers.EndpointIPv4. -/
def qualifies (destIP srcIP : Nat) (f : Frame) : Bool :=
  f.hasNet && (f.netType == 4) && (f.flowSrc == destIP) && (f.flowDst == srcIP) &&
    f.hasTCP && (f.dstPort == probeSrcPort) && f.syn && f.ack

/-- The receive loop of ScanAddress (scanner.go lines 136-192), returning
the loop's result together with the number of SendPacket attempts made.
Per iteration: if not yet sent, start is reset to time.Now() and one send
is attempted, with sent set only on success (lines 139-146); then the
3-second deadline is checked (lines 149-151, returning nil, i.e. a
non-error Closed verdict); then ReadPacketData: a timeout continues, any
other read error is logged and also continues (lines 155-160), and a
frame that satisfies the match condition produces the Open verdict and a
normal return (lines 170-190).  none means the trace ended with the loop
still running. -/
def probeRun (destIP srcIP : Nat) (sent : Bool) (start : Nat) :
    List Step → Option (Except String Verdict) × Nat
  | [] => (none, 0)
  | st :: rest =>
    let attempted : Nat := if sent then 0 else 1
    let start' := if sent then start else st.sendTime
    let sent' := sent || st.sendOk
    if st.checkTime - start' > deadline then
      (some (Except.ok Verdict.closedPort), attempted)
    else
      match st.read with
      | ReadResult.timeout =>
        ((probeRun destIP srcIP sent' start' rest).1,
          attempted + (probeRun destIP srcIP sent' start' rest).2)
      | ReadResult.readErr _ =>
        ((probeRun destIP srcIP sent' start' rest).1,
          attempted + (probeRun destIP srcIP sent' start' rest).2)
      | ReadResult.frame f =>
        if qualifies destIP srcIP f then
          (some (Except.ok (Verdict.openPort f.srcPort)), attempted)
        else
          ((probeRun destIP srcIP sent' start' rest).1,
            attempted + (probeRun destIP srcIP sent' start' rest).2)

/-- A step at which the probe loop (with the frame already sent) stops:
either the deadline check fires, or the read yields a qualifying frame. -/
def probeDecisive (destIP srcIP start : Nat) (st : Step) : Bool :=
  decide (st.checkTime - start > deadline) ||
    (match st.read with
     | ReadResult.frame f => qualifies destIP srcIP f
     | _ => false)

/-- Decoded view of a captured frame as inspected by DestMACAddress
(scanner.go lines 82-90): whether packet.Layer(LayerTypeARP) is non-nil,
the ARP operation (1 request, 2 reply), the sender protocol address and
the sender hardware address. -/
structure ArpFrame where
  hasArp : Bool
  operation : Nat
  senderProt : Nat
  senderHw : Nat
  deriving DecidableEq

/-- Outcome of one ReadPacketData call in the resolution loop. -/
inductive ArpRead where
  | timeout : ArpRead
  | readErr : String → ArpRead
  | frame : ArpFrame → ArpRead
  deriving DecidableEq

/-- One iteration of the DestMACAddress loop: the wall-clock value at the
time.Since check and the read result. -/
structure ArpStep where
  checkTime : Nat
  read : ArpRead
  deriving DecidableEq

/-- scanner.go lines 37-41: arpDst is the gateway when non-nil, otherwise
DestIP. -/
def resolveTarget (destIP : Nat) (gateway : Option Nat) : Nat :=
  match gateway with
  | some gw => gw
  | none => destIP

/-- The ARP request built in scanner.go lines 44-60: broadcast
destination MAC, operation ARPRequest, sender protocol address SourceIP,
target protocol address arpDst. -/
structure ArpRequest where
  dstMAC : List Nat
  operation : Nat
  senderProt : Nat
  targetProt : Nat
  deriving DecidableEq

/-- Build the single ARP request of DestMACAddress. -/
def mkArpRequest (srcIP destIP : Nat) (gateway : Option Nat) : ArpRequest :=
  { dstMAC := [255, 255, 255, 255, 255, 255]
    operation := 1
    senderProt := srcIP
    targetProt := resolveTarget destIP gateway }

/-- The filter of scanner.go lines 84-89: an ARP layer is present and its
SourceProtAddress equals arpDst.  The ARP operation is not inspected. -/
def arpMatches (target : Nat) (f : ArpFrame) : Bool :=
  f.hasArp && (f.senderProt == target)

/-- The receive loop of DestMACAddress (scanner.go lines 68-91).  Per
iteration: the 3-second deadline check (returning the timeout error),
then ReadPacketData: a timeout continues, any other read error aborts
with that error, and an ARP frame whose sender protocol address equals
arpDst returns its sender hardware address (abstracted to Nat). -/
def resolveLoop (target start : Nat) : List ArpStep → Option (Except String Nat)
  | [] => none
  | st :: rest =>
    if st.checkTime - start > deadline then
      some (Except.error "No ARP reply within 3 seconds")
    else
      match st.read with
      | ArpRead.timeout => resolveLoop target start rest
      | ArpRead.readErr msg => some (Except.error msg)
      | ArpRead.frame f =>
        if arpMatches target f then some (Except.ok f.senderHw)
        else resolveLoop target start rest

/-- A step at which the resolution loop stops: deadline fired, a
non-timeout read error, or a matching ARP frame. -/
def arpDecisive (target start : Nat) (st : ArpStep) : Bool :=
  decide (st.checkTime - start > deadline) ||
    (match st.read with
     | ArpRead.timeout => false
     | ArpRead.readErr _ => true
     | ArpRead.frame f => arpMatches target f)

/-- The report line printed by scanner.go line 187.  The Go format string
is "%sshScanner:%d,%sshScanner\n" (a variable rename corrupted the
original "%s:%d,%s\n"), so after the two %s verbs the text shScanner is
emitted literally; the %d argument is tcp.SrcPort of the received reply
frame (the tcp variable is shadowed at line 168), and the %s arguments
are DestIP.String() and the banner text. -/
def reportLine (addr : String) (port : Nat) (banner : String) : String :=
  addr ++ "shScanner:" ++ toString port ++ "," ++ banner ++ "shScanner\n"

/-- strings.Trim(str, "\x7bnewline\x7d"): remove every leading and
trailing newline character from a character list. -/
def trimChars (l : List Char) : List Char :=
  ((l.dropWhile (fun c => c == '\n')).reverse.dropWhile (fun c => c == '\n')).reverse

/-- strings.Trim(str, cutset) for the cutset containing only the newline
character, scanner.go line 180. -/
def trimNL (s : String) : String :=
  String.mk (trimChars s.data)

/-- The banner computation of scanner.go lines 176-185: data starts
empty; if ReadString returned a non-empty string it is trimmed of
newlines; if ReadString returned an error the fixed marker replaces
whatever was read.  `str` and `isErr` are the two results of
connbuf.ReadString.  bufio guarantees isErr = false exactly when str ends
with the delimiter. -/
def bannerText (str : String) (isErr : Bool) : String :=
  let d := if str.length > 0 then trimNL str else ""
  if isErr then "Unable to get banner" else d

/-- What becomes of the goroutine once the Open verdict is reached
(scanner.go lines 173-189): the report line, or a runtime panic. -/
inductive BannerOutcome where
  | report : String → BannerOutcome
  | panicked : BannerOutcome
  deriving DecidableEq

/-- The banner branch of ScanAddress (scanner.go lines 174-189).  The
error of net.Dial is discarded (conn, _ := net.Dial(...)); when the dial
fails conn is nil, and connbuf.ReadString dereferences the nil
connection: a runtime panic.  On a successful dial the report line is
printed. -/
def bannerStage (dialOk : Bool) (addr : String) (port : Nat) (str : String)
    (isErr : Bool) : BannerOutcome :=
  if dialOk then BannerOutcome.report (reportLine addr port (bannerText str isErr))
  else BannerOutcome.panicked

/-- An unrecovered panic inside a goroutine terminates the whole Go
process, killing every other in-flight target scan; a normal report
leaves them running. -/
def otherTargetsSurvive : BannerOutcome → Bool
  | BannerOutcome.report _ => true
  | BannerOutcome.panicked => false

/-- The three exit paths of the per-target goroutine in main.go lines
117-139: create failed (route lookup or pcap.OpenLive error, lines
121-125), ScanAddress returned an error (lines 128-131), or the scan
completed (lines 133-138). -/
inductive ScanExit where
  | createFailed : ScanExit
  | scanFailed : ScanExit
  | scanSucceeded : ScanExit
  deriving DecidableEq

/-- Observable resource trace of one goroutine: whether a pcap handle was
opened for it, and how many times Close was called on that handle. -/
structure UnitRun where
  handleOpened : Bool
  closeCalls : Nat
  deriving DecidableEq

/-- The goroutine body of main.go lines 117-139.  create opens the pcap
handle only after the route lookup succeeds, so a create failure leaves
no handle open.  When ScanAddress returns an error the goroutine
decrements wait and returns WITHOUT calling sshScanner.Close() (lines
128-131); Close is called only on the success path (line 134). -/
def runScanUnit : ScanExit → UnitRun
  | ScanExit.createFailed => { handleOpened := false, closeCalls := 0 }
  | ScanExit.scanFailed => { handleOpened := true, closeCalls := 0 }
  | ScanExit.scanSucceeded => { handleOpened := true, closeCalls := 1 }

/-- The expand helper of main.go lines 53-61, acting on the reversed byte
list: the Go loop walks j from the last byte down, increments ip[j]
(bytes wrap 255 to 0) and stops at the first byte that did not wrap. -/
def expandRev : List Nat → List Nat
  | [] => []
  | b :: rest =>
    let b' := (b + 1) % 256
    if b' > 0 then b' :: rest else b' :: expandRev rest

/-- The expand helper of main.go lines 53-61 on a big-endian byte list. -/
def expand (ip : List Nat) : List Nat :=
  (expandRev ip.reverse).reverse

/-- Value of a big-endian byte list as a base-256 unsigned integer. -/
def toNum : List Nat → Nat
  | [] => 0
  | b :: rest => b * 256 ^ rest.length + toNum rest

/-- Value of a little-endian byte list. -/
def toNumLE : List Nat → Nat
  | [] => 0
  | b :: rest => b + 256 * toNumLE rest

/-- Byte i of net.CIDRMask(bits, 32). -/
def maskByte (bits i : Nat) : Nat :=
  if 8 * (i + 1) ≤ bits then 255
  else if bits ≤ 8 * i then 0
  else 256 - 2 ^ (8 * (i + 1) - bits)

/-- net.CIDRMask(bits, 32) as four bytes. -/
def cidrMask (bits : Nat) : List Nat :=
  (List.range 4).map (maskByte bits)

/-- net.IP.Mask: byte-wise AND of address and mask. -/
def maskIP (ip mask : List Nat) : List Nat :=
  List.zipWith Nat.land ip mask

/-- net.IPNet.Contains: the masked address equals the (already masked)
network address. -/
def ipContains (netIP mask ip : List Nat) : Bool :=
  maskIP ip mask == netIP

/-- The expansion loop of main.go line 93: for ip := ip.Mask(ipnet.Mask);
ipnet.Contains(ip); expand(ip), collecting ip.String() each iteration.
The first argument bounds the number of iterations; for a /bits network
the loop body runs exactly 2 raised to (32 - bits) times, so any larger
fuel yields the exact list the Go loop appends. -/
def cidrExpandLoop (netIP mask : List Nat) : Nat → List Nat → List (List Nat)
  | 0, _ => []
  | fuel + 1, ip =>
    if ipContains netIP mask ip then ip :: cidrExpandLoop netIP mask fuel (expand ip)
    else []

/-- All addresses the loop of main.go line 93 appends for a valid CIDR
argument base/bits. -/
def cidrExpand (base : List Nat) (bits : Nat) : List (List Nat) :=
  cidrExpandLoop (maskIP base (cidrMask bits)) (cidrMask bits)
    (2 ^ (32 - bits) + 1) (maskIP base (cidrMask bits))

/-- A command-line argument as the two parsers see it: a string that
net.ParseIP accepts as an IPv4 address (such as the strings produced by
ip.String() during expansion), a string containing a slash that
net.ParseCIDR accepts, or anything else. -/
inductive Arg where
  | addr : List Nat → Arg
  | cidr : List Nat → Nat → Arg
  | bad : String → Arg
  deriving DecidableEq

/-- The call remove(args, i) at main.go line 97 with its result
discarded.  remove is append(slice[:i], slice[i+1:]...): it shifts the
elements after index i one slot left inside the backing array, but the
caller keeps the old slice header, so the old length is retained and the
last element now appears twice.  Removing the last element shifts
nothing. -/
def buggyRemove (l : List Arg) (i : Nat) : List Arg :=
  if i + 1 < l.length then
    l.take i ++ l.drop (i + 1) ++ l.drop (l.length - 1)
  else l

/-- The expansion pass of main.go lines 85-100.  The range clause
iterates over the snapshot taken when the loop began (the appends
reallocate the backing array, so the snapshot keeps the original
values); args is the evolving slice; i counts CIDR arguments processed
and is the index passed to remove. -/
def expandPhase : List Arg → List Arg → Nat → List Arg
  | [], args, _ => args
  | Arg.cidr base bits :: rest, args, i =>
    expandPhase rest (buggyRemove (args ++ (cidrExpand base bits).map Arg.addr) i) (i + 1)
  | _ :: rest, args, i => expandPhase rest args i

/-- The scan pass of main.go lines 106-140 applied to the expanded
argument list: arguments that net.ParseIP rejects (including the CIDR
strings themselves) are reported and skipped, every parsed IPv4 address
is handed to a scanner goroutine.  Returns the list of addresses
scanned, in launch order and with multiplicity. -/
def scannedAddrs (argv : List Arg) : List (List Nat) :=
  (expandPhase argv argv 0).filterMap fun a =>
    match a with
    | Arg.addr b => some b
    | _ => none

/-! ### Helper lemmas -/

/-- A list whose every element fails the predicate is unchanged by
dropWhile. -/
theorem dropWhile_eq_self_of_none {α : Type} (p : α → Bool) (l : List α)
    (h : ∀ c ∈ l, p c = false) : l.dropWhile p = l := by
  cases l with
  | nil => rfl
  | cons a as =>
    rw [List.dropWhile_cons, h a (List.mem_cons_self a as)]
    simp

/-- Appending one newline to a newline-free list and trimming newlines
from both ends gives back the list. -/
theorem trimChars_append_newline (l : List Char) (h : ('\n') ∉ l) :
    trimChars (l ++ ['\n']) = l := by
  have hall : ∀ c ∈ l, (c == '\n') = false := by
    intro c hc
    exact beq_eq_false_iff_ne.mpr (fun e => h (e ▸ hc))
  cases l with
  | nil => rfl
  | cons a as =>
    unfold trimChars
    rw [List.cons_append, List.dropWhile_cons, hall a (List.mem_cons_self a as)]
    simp only [Bool.false_eq_true, if_false]
    rw [show a :: (as ++ ['\n']) = (a :: as) ++ ['\n'] from rfl, List.reverse_append]
    rw [show (['\n'] : List Char).reverse = ['\n'] from rfl, List.singleton_append,
      List.dropWhile_cons]
    have hnl : (('\n' : Char) == '\n') = true := by decide
    rw [hnl]
    simp only [if_true]
    rw [dropWhile_eq_self_of_none _ _ (by
      intro c hc
      exact hall c (List.mem_reverse.mp hc))]
    exact List.reverse_reverse (a :: as)

/-- A non-decisive step leaves the already-sent probe loop's verdict
unchanged. -/
theorem probe_skip (d s start : Nat) (st : Step) (rest : List Step)
    (h : probeDecisive d s start st = false) :
    (probeRun d s true start (st :: rest)).1 = (probeRun d s true start rest).1 := by
  have hd : ¬ (st.checkTime - start > deadline) := by
    intro hgt
    simp [probeDecisive, hgt] at h
  cases hr : st.read with
  | timeout => simp [probeRun, hr, hd]
  | readErr m => simp [probeRun, hr, hd]
  | frame f =>
    have hq : qualifies d s f = false := by
      simpa [probeDecisive, hr, hd] using h
    simp [probeRun, hr, hd, hq]

/-- The already-sent probe loop returns Open with the reply's source
port at the first qualifying frame reached within the deadline. -/
theorem probe_first_open (d s start : Nat) (pre : List Step) (st : Step)
    (post : List Step) (f : Frame)
    (hpre : ∀ st' ∈ pre, probeDecisive d s start st' = false)
    (hr : st.read = ReadResult.frame f) (hq : qualifies d s f = true)
    (hdl : st.checkTime - start ≤ deadline) :
    (probeRun d s true start (pre ++ st :: post)).1
      = some (Except.ok (Verdict.openPort f.srcPort)) := by
  induction pre with
  | nil =>
    have hd : ¬ (st.checkTime - start > deadline) := Nat.not_lt.mpr hdl
    simp [probeRun, hr, hd, hq]
  | cons a pre ih =>
    have ha := hpre a (List.mem_cons_self a pre)
    rw [List.cons_append, probe_skip d s start a _ ha]
    exact ih (fun st' h' => hpre st' (List.mem_cons_of_mem a h'))

/-- The already-sent probe loop returns the non-error Closed verdict at
the first deadline check that fires. -/
theorem probe_first_closed (d s start : Nat) (pre : List Step) (st : Step)
    (post : List Step)
    (hpre : ∀ st' ∈ pre, probeDecisive d s start st' = false)
    (hdl : deadline < st.checkTime - start) :
    (probeRun d s true start (pre ++ st :: post)).1
      = some (Except.ok Verdict.closedPort) := by
  induction pre with
  | nil => simp [probeRun, hdl]
  | cons a pre ih =>
    have ha := hpre a (List.mem_cons_self a pre)
    rw [List.cons_append, probe_skip d s start a _ ha]
    exact ih (fun st' h' => hpre st' (List.mem_cons_of_mem a h'))

/-- A non-decisive step leaves the resolution loop's result
unchanged. -/
theorem arp_skip (target start : Nat) (st : ArpStep) (rest : List ArpStep)
    (h : arpDecisive target start st = false) :
    resolveLoop target start (st :: rest) = resolveLoop target start rest := by
  have hd : ¬ (st.checkTime - start > deadline) := by
    intro hgt
    simp [arpDecisive, hgt] at h
  cases hr : st.read with
  | timeout => simp [resolveLoop, hr, hd]
  | readErr m => simp [arpDecisive, hr, hd] at h
  | frame f =>
    have hq : arpMatches target f = false := by
      simpa [arpDecisive, hr, hd] using h
    simp [resolveLoop, hr, hd, hq]

/-- The resolution loop returns the sender hardware address of the first
matching ARP frame reached within the deadline. -/
theorem arp_first_match (target start : Nat) (pre : List ArpStep) (st : ArpStep)
    (post : List ArpStep) (f : ArpFrame)
    (hpre : ∀ st' ∈ pre, arpDecisive target start st' = false)
    (hr : st.read = ArpRead.frame f) (hq : arpMatches target f = true)
    (hdl : st.checkTime - start ≤ deadline) :
    resolveLoop target start (pre ++ st :: post) = some (Except.ok f.senderHw) := by
  induction pre with
  | nil =>
    have hd : ¬ (st.checkTime - start > deadline) := Nat.not_lt.mpr hdl
    simp [resolveLoop, hr, hd, hq]
  | cons a pre ih =>
    have ha := hpre a (List.mem_cons_self a pre)
    rw [List.cons_append, arp_skip target start a _ ha]
    exact ih (fun st' h' => hpre st' (List.mem_cons_of_mem a h'))

/-- The resolution loop fails with the fixed timeout error at the first
deadline check that fires. -/
theorem arp_first_timeout (target start : Nat) (pre : List ArpStep) (st : ArpStep)
    (post : List ArpStep)
    (hpre : ∀ st' ∈ pre, arpDecisive target start st' = false)
    (hdl : deadline < st.checkTime - start) :
    resolveLoop target start (pre ++ st :: post)
      = some (Except.error "No ARP reply within 3 seconds") := by
  induction pre with
  | nil => simp [resolveLoop, hdl]
  | cons a pre ih =>
    have ha := hpre a (List.mem_cons_self a pre)
    rw [List.cons_append, arp_skip target start a _ ha]
    exact ih (fun st' h' => hpre st' (List.mem_cons_of_mem a h'))

/-! ### Claim theorems -/

/-- Claim C1 (confirmed).  With the SYN already sent at time `start`,
the probe loop returns the Open verdict (a normal, non-error return) on
the first captured frame satisfying all four match conditions -- flow
equality with the expected reply flow, presence of a TCP layer,
destination port 63323, and SYN and ACK both set -- provided no earlier
deadline check fired; if the 3-second deadline elapses before any
qualifying frame, the verdict is the non-error Closed result; and flow
matching is order-sensitive: a frame whose endpoints are swapped
(source equal to the scanner's source, destination equal to the
scanner's destination) never qualifies. -/
theorem probe_verdict_correct (d s start : Nat) (evs : List Step) (hne : d ≠ s) :
    (∀ pre st post f, evs = pre ++ st :: post →
        (∀ st' ∈ pre, probeDecisive d s start st' = false) →
        st.read = ReadResult.frame f →
        qualifies d s f = true →
        st.checkTime - start ≤ deadline →
        (probeRun d s true start evs).1 = some (Except.ok (Verdict.openPort f.srcPort))) ∧
    (∀ pre st post, evs = pre ++ st :: post →
        (∀ st' ∈ pre, probeDecisive d s start st' = false) →
        deadline < st.checkTime - start →
        (probeRun d s true start evs).1 = some (Except.ok Verdict.closedPort)) ∧
    (∀ f : Frame, f.flowSrc = s → f.flowDst = d → qualifies d s f = false) := by
  refine ⟨?_, ?_, ?_⟩
  · intro pre st post f heq hpre hr hq hdl
    subst heq
    exact probe_first_open d s start pre st post f hpre hr hq hdl
  · intro pre st post heq hpre hdl
    subst heq
    exact probe_first_closed d s start pre st post hpre hdl
  · intro f h1 h2
    have hsrc : (f.flowSrc == d) = false := by
      rw [h1]
      exact beq_eq_false_iff_ne.mpr (Ne.symm hne)
    simp [qualifies, hsrc]

/-- Witness for C1: a concrete SYN+ACK reply frame on the expected flow
is recognised as Open with the reply's source port. -/
theorem probe_verdict_correct_witness :
    (probeRun 1 2 true 0
      [{ sendTime := 0, sendOk := true, checkTime := 1, read := ReadResult.frame
          { hasNet := true, netType := 4, flowSrc := 1, flowDst := 2, hasTCP := true,
            srcPort := 22, dstPort := 63323, syn := true, ack := true } }]).1
      = some (Except.ok (Verdict.openPort 22)) :=
  (probe_verdict_correct 1 2 0
      [{ sendTime := 0, sendOk := true, checkTime := 1, read := ReadResult.frame
          { hasNet := true, netType := 4, flowSrc := 1, flowDst := 2, hasTCP := true,
            srcPort := 22, dstPort := 63323, syn := true, ack := true } }]
      (by decide)).1
    [] _ [] _ rfl (by simp) rfl (by decide) (by decide)

/-- Counterexample for C2.  The resolution target is 5.  The first
captured frame is an ARP REQUEST (operation 1) whose sender protocol
address is 5 and whose sender hardware address is 17; the only ARP REPLY
(operation 2) in the capture carries hardware address 99.  DestMACAddress
never inspects the ARP operation (scanner.go lines 84-89), so it returns
17 -- not the responder hardware address 99 of the first captured ARP
reply, refuting the claim as stated. -/
theorem resolve_reply_counterexample :
    resolveLoop 5 0
      [{ checkTime := 1,
         read := ArpRead.frame { hasArp := true, operation := 1, senderProt := 5, senderHw := 17 } },
       { checkTime := 1,
         read := ArpRead.frame { hasArp := true, operation := 2, senderProt := 5, senderHw := 99 } }]
      = some (Except.ok 17) ∧ (17 : Nat) ≠ 99 := by
  refine ⟨rfl, by decide⟩

/-- Claim C2 as amended (corrected).  resolve sends a single broadcast
resolution request whose target protocol address is route.gateway when
non-null and the destination itself otherwise; the receive loop returns
the sender hardware address of the first captured ARP frame -- of any
operation, request or reply alike -- whose sender protocol address
equals the resolution target, reading no further frames and silently
discarding non-matching frames; and it fails with the fixed
resolution-timeout error when the 3-second deadline check fires before
any such frame. -/
theorem resolve_spec (srcIP destIP : Nat) (gw : Option Nat) (start : Nat)
    (steps : List ArpStep) :
    ((mkArpRequest srcIP destIP gw).dstMAC = [255, 255, 255, 255, 255, 255] ∧
     (mkArpRequest srcIP destIP gw).operation = 1 ∧
     (mkArpRequest srcIP destIP gw).senderProt = srcIP ∧
     (mkArpRequest srcIP destIP gw).targetProt = resolveTarget destIP gw) ∧
    (∀ g : Nat, resolveTarget destIP (some g) = g) ∧
    resolveTarget destIP none = destIP ∧
    (∀ pre st post f, steps = pre ++ st :: post →
        (∀ st' ∈ pre, arpDecisive (resolveTarget destIP gw) start st' = false) →
        st.read = ArpRead.frame f →
        arpMatches (resolveTarget destIP gw) f = true →
        st.checkTime - start ≤ deadline →
        resolveLoop (resolveTarget destIP gw) start steps = some (Except.ok f.senderHw)) ∧
    (∀ pre st post, steps = pre ++ st :: post →
        (∀ st' ∈ pre, arpDecisive (resolveTarget destIP gw) start st' = false) →
        deadline < st.checkTime - start →
        resolveLoop (resolveTarget destIP gw) start steps
          = some (Except.error "No ARP reply within 3 seconds")) := by
  refine ⟨⟨rfl, rfl, rfl, rfl⟩, fun g => rfl, rfl, ?_, ?_⟩
  · intro pre st post f heq hpre hr hq hdl
    subst heq
    exact arp_first_match _ start pre st post f hpre hr hq hdl
  · intro pre st post heq hpre hdl
    subst heq
    exact arp_first_timeout _ start pre st post hpre hdl

/-- Witness for the amended C2: with a gateway present the request
targets the gateway, and a concrete matching ARP frame resolves to its
sender hardware address. -/
theorem resolve_spec_witness :
    ((mkArpRequest 7 9 (some 5)).dstMAC = [255, 255, 255, 255, 255, 255] ∧
     (mkArpRequest 7 9 (some 5)).operation = 1 ∧
     (mkArpRequest 7 9 (some 5)).senderProt = 7 ∧
     (mkArpRequest 7 9 (some 5)).targetProt = resolveTarget 9 (some 5)) ∧
    resolveLoop (resolveTarget 9 (some 5)) 0
      [{ checkTime := 2,
         read := ArpRead.frame { hasArp := true, operation := 2, senderProt := 5, senderHw := 42 } }]
      = some (Except.ok 42) :=
  have h := resolve_spec 7 9 (some 5) 0
    [{ checkTime := 2,
       read := ArpRead.frame { hasArp := true, operation := 2, senderProt := 5, senderHw := 42 } }]
  ⟨h.1, h.2.2.2.1 [] _ [] _ rfl (by simp) rfl (by decide) (by decide)⟩

/-- Once the SYN has been sent successfully, no further SendPacket
attempts are ever made by the loop. -/
theorem probeRun_sent_zero (d s start : Nat) (evs : List Step) :
    (probeRun d s true start evs).2 = 0 := by
  induction evs with
  | nil => rfl
  | cons st rest ih =>
    by_cases hd : st.checkTime - start > deadline
    · simp [probeRun, hd]
    · cases hr : st.read with
      | timeout => simp [probeRun, hr, hd, ih]
      | readErr m => simp [probeRun, hr, hd, ih]
      | frame f =>
        by_cases hq : qualifies d s f
        · simp [probeRun, hr, hd, hq]
        · simp [probeRun, hr, hd, hq, ih]

/-- Counterexample for C5.  In the first iteration the SendPacket call
fails, the deadline (measured from that attempt) has not elapsed and the
read times out; in the second iteration the loop attempts the send
AGAIN, which succeeds.  The loop therefore writes the SYN frame twice --
the failed send is retried, refuting the at-most-once claim. -/
theorem send_single_counterexample :
    (probeRun 1 2 false 0
      [{ sendTime := 0, sendOk := false, checkTime := 1, read := ReadResult.timeout },
       { sendTime := 2, sendOk := true, checkTime := 3, read := ReadResult.timeout }]).2 = 2 ∧
    ¬ ((probeRun 1 2 false 0
      [{ sendTime := 0, sendOk := false, checkTime := 1, read := ReadResult.timeout },
       { sendTime := 2, sendOk := true, checkTime := 3, read := ReadResult.timeout }]).2 ≤ 1) := by
  refine ⟨rfl, by decide⟩

/-- Claim C5 as amended (corrected).  Each iteration entered before a
successful write attempts the write exactly once, with the 3-second
deadline re-based to that attempt's time; once a write has succeeded no
further writes are attempted (the frame is never retransmitted); but a
FAILED write is logged and retried on the next iteration, so the total
number of write attempts is one plus however many the remaining trace
causes. -/
theorem send_retry_policy (d s start : Nat) :
    (∀ evs : List Step, (probeRun d s true start evs).2 = 0) ∧
    (∀ (st : Step) (rest : List Step), st.sendOk = true →
        (probeRun d s false start (st :: rest)).2 = 1) ∧
    (∀ (st : Step) (rest : List Step), st.sendOk = false →
        st.checkTime - st.sendTime ≤ deadline → st.read = ReadResult.timeout →
        (probeRun d s false start (st :: rest)).2
          = 1 + (probeRun d s false st.sendTime rest).2) := by
  refine ⟨fun evs => probeRun_sent_zero d s start evs, ?_, ?_⟩
  · intro st rest hok
    by_cases hd : st.checkTime - st.sendTime > deadline
    · simp [probeRun, hok, hd]
    · cases hr : st.read with
      | timeout => simp [probeRun, hok, hr, hd, probeRun_sent_zero]
      | readErr m => simp [probeRun, hok, hr, hd, probeRun_sent_zero]
      | frame f =>
        by_cases hq : qualifies d s f
        · simp [probeRun, hok, hr, hd, hq]
        · simp [probeRun, hok, hr, hd, hq, probeRun_sent_zero]
  · intro st rest hok hdl hr
    have hd : ¬ (st.checkTime - st.sendTime > deadline) := Nat.not_lt.mpr hdl
    simp [probeRun, hok, hr, hd]

/-- Witness for the amended C5: after a successful first send the
concrete trace makes no further attempts; a failed first send is
followed by a retry. -/
theorem send_retry_policy_witness :
    (probeRun 1 2 true 0
      [{ sendTime := 0, sendOk := true, checkTime := 1, read := ReadResult.timeout }]).2 = 0 ∧
    (probeRun 1 2 false 0
      [{ sendTime := 0, sendOk := true, checkTime := 1, read := ReadResult.timeout }]).2 = 1 ∧
    (probeRun 1 2 false 0
      [{ sendTime := 0, sendOk := false, checkTime := 1, read := ReadResult.timeout }]).2
      = 1 + (probeRun 1 2 false 0 ([] : List Step)).2 :=
  have h := send_retry_policy 1 2 0
  ⟨h.1 [{ sendTime := 0, sendOk := true, checkTime := 1, read := ReadResult.timeout }],
   h.2.1 { sendTime := 0, sendOk := true, checkTime := 1, read := ReadResult.timeout } [] rfl,
   h.2.2 { sendTime := 0, sendOk := false, checkTime := 1, read := ReadResult.timeout } []
     rfl (by decide) rfl⟩

/-- Counterexample for C6.  In the probe stage a non-timeout read
failure occurs on the first read; the claim says this aborts the
target's scan with an error, but the loop merely logs it and continues:
the very next frame still produces the Open verdict, and the run never
surfaces the read error. -/
theorem probe_read_error_counterexample :
    (probeRun 1 2 true 0
      [{ sendTime := 0, sendOk := true, checkTime := 1, read := ReadResult.readErr "read failed" },
       { sendTime := 0, sendOk := true, checkTime := 2, read := ReadResult.frame
          { hasNet := true, netType := 4, flowSrc := 1, flowDst := 2, hasTCP := true,
            srcPort := 22, dstPort := 63323, syn := true, ack := true } }]).1
      = some (Except.ok (Verdict.openPort 22)) ∧
    (probeRun 1 2 true 0
      [{ sendTime := 0, sendOk := true, checkTime := 1, read := ReadResult.readErr "read failed" },
       { sendTime := 0, sendOk := true, checkTime := 2, read := ReadResult.frame
          { hasNet := true, netType := 4, flowSrc := 1, flowDst := 2, hasTCP := true,
            srcPort := 22, dstPort := 63323, syn := true, ack := true } }]).1
      ≠ some (Except.error "read failed") := by
  refine ⟨rfl, by decide⟩

/-- Claim C6 as amended (corrected).  In the resolution stage a
non-timeout read failure reached within the deadline aborts the stage,
surfacing that error; in the probe stage a non-timeout read failure is
only logged and the receive loop continues unchanged; in both stages a
read timeout merely re-evaluates the deadline on the next iteration. -/
theorem read_failure_policy :
    (∀ (target start t : Nat) (msg : String) (rest : List ArpStep),
        t - start ≤ deadline →
        resolveLoop target start ({ checkTime := t, read := ArpRead.readErr msg } :: rest)
          = some (Except.error msg)) ∧
    (∀ (d s start : Nat) (st : Step) (msg : String) (rest : List Step),
        st.checkTime - start ≤ deadline → st.read = ReadResult.readErr msg →
        (probeRun d s true start (st :: rest)).1 = (probeRun d s true start rest).1) ∧
    (∀ (target start t : Nat) (rest : List ArpStep),
        t - start ≤ deadline →
        resolveLoop target start ({ checkTime := t, read := ArpRead.timeout } :: rest)
          = resolveLoop target start rest) ∧
    (∀ (d s start : Nat) (st : Step) (rest : List Step),
        st.checkTime - start ≤ deadline → st.read = ReadResult.timeout →
        (probeRun d s true start (st :: rest)).1 = (probeRun d s true start rest).1) := by
  refine ⟨?_, ?_, ?_, ?_⟩
  · intro target start t msg rest hdl
    have hd : ¬ (t - start > deadline) := Nat.not_lt.mpr hdl
    simp [resolveLoop, hd]
  · intro d s start st msg rest hdl hr
    have hd : ¬ (st.checkTime - start > deadline) := Nat.not_lt.mpr hdl
    simp [probeRun, hr, hd]
  · intro target start t rest hdl
    have hd : ¬ (t - start > deadline) := Nat.not_lt.mpr hdl
    simp [resolveLoop, hd]
  · intro d s start st rest hdl hr
    have hd : ¬ (st.checkTime - start > deadline) := Nat.not_lt.mpr hdl
    simp [probeRun, hr, hd]

/-- Witness for the amended C6 at concrete traces. -/
theorem read_failure_policy_witness :
    resolveLoop 5 0 [{ checkTime := 1, read := ArpRead.readErr "broken pipe" }]
      = some (Except.error "broken pipe") ∧
    (probeRun 1 2 true 0
      [{ sendTime := 0, sendOk := true, checkTime := 1, read := ReadResult.readErr "broken pipe" }]).1
      = (probeRun 1 2 true 0 ([] : List Step)).1 ∧
    resolveLoop 5 0 [{ checkTime := 1, read := ArpRead.timeout }]
      = resolveLoop 5 0 ([] : List ArpStep) ∧
    (probeRun 1 2 true 0
      [{ sendTime := 0, sendOk := true, checkTime := 1, read := ReadResult.timeout }]).1
      = (probeRun 1 2 true 0 ([] : List Step)).1 :=
  have h := read_failure_policy
  ⟨h.1 5 0 1 "broken pipe" [] (by decide),
   h.2.1 1 2 0
     { sendTime := 0, sendOk := true, checkTime := 1, read := ReadResult.readErr "broken pipe" }
     "broken pipe" [] (by decide) rfl,
   h.2.2.1 5 0 1 [] (by decide),
   h.2.2.2 1 2 0
     { sendTime := 0, sendOk := true, checkTime := 1, read := ReadResult.timeout }
     [] (by decide) rfl⟩

/-- Claim C3 (code bug).  For a target confirmed open by a genuine
SYN+ACK reply (source port 22, destination port 63323), the code's
report line is NOT of the claimed form address:63323,banner: the
corrupted format string "%sshScanner:%d,%sshScanner" inserts the literal
text shScanner after each string verb, and the printed port is
tcp.SrcPort of the RECEIVED reply (22) -- the shadowed tcp variable of
scanner.go line 168 -- not the fixed probe source port 63323. -/
theorem report_format_bug :
    (probeRun 1 2 true 0
      [{ sendTime := 0, sendOk := true, checkTime := 2, read := ReadResult.frame
          { hasNet := true, netType := 4, flowSrc := 1, flowDst := 2, hasTCP := true,
            srcPort := 22, dstPort := 63323, syn := true, ack := true } }]).1
      = some (Except.ok (Verdict.openPort 22)) ∧
    reportLine "10.0.0.1" 22 "SSH-2.0-OpenSSH"
      = "10.0.0.1shScanner:22,SSH-2.0-OpenSSHshScanner\n" ∧
    reportLine "10.0.0.1" 22 "SSH-2.0-OpenSSH" ≠ "10.0.0.1:63323,SSH-2.0-OpenSSH\n" := by
  refine ⟨rfl, by decide, by decide⟩

/-- Claim C4 (code bug).  When ScanAddress returns an error -- for
example a resolution timeout -- the goroutine of main.go lines 128-131
returns without calling Close, so the pcap handle that create opened is
closed zero times, not exactly once; Close runs only on the success
path. -/
theorem handle_close_bug :
    (runScanUnit ScanExit.scanFailed).handleOpened = true ∧
    (runScanUnit ScanExit.scanFailed).closeCalls = 0 ∧
    (runScanUnit ScanExit.scanFailed).closeCalls ≠ 1 ∧
    (runScanUnit ScanExit.scanSucceeded).closeCalls = 1 ∧
    (runScanUnit ScanExit.createFailed).handleOpened = false := by
  refine ⟨rfl, rfl, by decide, rfl, rfl⟩

/-- Claim C7 (confirmed).  When the stream yields a complete line (a
newline-free line followed by the terminator, which is exactly when
bufio.ReadString reports no error), the banner is that line with the
terminator stripped; whenever ReadString reports an error -- end of
stream before a terminator, an immediate close with zero bytes, or any
read error -- the banner is the fixed marker, and no error is
propagated (bannerText is total and the scan returns normally). -/
theorem banner_line_spec (L s : String) (hL : ('\n') ∉ L.data) :
    bannerText (L ++ "\n") false = L ∧
    bannerText s true = "Unable to get banner" := by
  constructor
  · have hdata : (L ++ "\n").data = L.data ++ ['\n'] := rfl
    have hlen : (L ++ "\n").length > 0 := by
      have hl2 : (L ++ "\n").length = L.data.length + 1 := by
        show (L ++ "\n").data.length = L.data.length + 1
        rw [hdata, List.length_append]
        rfl
      omega
    unfold bannerText
    simp only [Bool.false_eq_true, if_false, if_pos hlen]
    unfold trimNL
    rw [hdata, trimChars_append_newline L.data hL]
  · rfl

/-- Witness for C7: the spec's own example line, and the zero-byte
immediate-close case. -/
theorem banner_line_spec_witness :
    bannerText ("SSH-2.0-OpenSSH" ++ "\n") false = "SSH-2.0-OpenSSH" ∧
    bannerText "" true = "Unable to get banner" :=
  banner_line_spec "SSH-2.0-OpenSSH" "" (by decide)

/-- Claim C8 (code bug, connect half).  When the banner connection
cannot be established, scanner.go line 174 discards the net.Dial error,
so the goroutine reads from a nil connection and panics; the unrecovered
panic terminates the whole process, so the failure is not reported as a
per-target error and every other in-flight target scan is killed.  On a
successful dial the other targets are unaffected. -/
theorem connect_failure_bug :
    bannerStage false "10.0.0.1" 22 "" true = BannerOutcome.panicked ∧
    otherTargetsSurvive BannerOutcome.panicked = false ∧
    otherTargetsSurvive (bannerStage true "10.0.0.1" 22 "SSH-2.0-OpenSSH\n" false) = true :=
  ⟨rfl, rfl, rfl⟩

/-- Claim C9 (code bug).  Scanning the single argument 10.0.0.0/30: the
expansion appends the four contained addresses, but remove(args, 0) at
main.go line 97 has its result discarded -- the backing array is shifted
left while the stale slice length is kept -- so the final argument list
duplicates its last element and 10.0.0.3 is scanned twice.  With a plain
address argument before the CIDR, the wrong index is removed (i is still
0), so 1.1.1.1 is silently never scanned at all. -/
theorem cidr_expansion_bug :
    scannedAddrs [Arg.cidr [10, 0, 0, 0] 30]
      = [[10, 0, 0, 0], [10, 0, 0, 1], [10, 0, 0, 2], [10, 0, 0, 3], [10, 0, 0, 3]] ∧
    scannedAddrs [Arg.cidr [10, 0, 0, 0] 30]
      ≠ [[10, 0, 0, 0], [10, 0, 0, 1], [10, 0, 0, 2], [10, 0, 0, 3]] ∧
    scannedAddrs [Arg.addr [1, 1, 1, 1], Arg.cidr [10, 0, 0, 0] 30]
      = [[10, 0, 0, 0], [10, 0, 0, 1], [10, 0, 0, 2], [10, 0, 0, 3], [10, 0, 0, 3]] := by
  refine ⟨by decide, by decide, by decide⟩

/-- A little-endian byte list with all bytes below 256 denotes a value
below 256 to the power of its length. -/
theorem toNumLE_lt : ∀ l : List Nat, (∀ b ∈ l, b < 256) → toNumLE l < 256 ^ l.length := by
  intro l
  induction l with
  | nil => intro _; simp [toNumLE]
  | cons b rest ih =>
    intro h
    have hb : b < 256 := h b (List.mem_cons_self b rest)
    have hr : toNumLE rest < 256 ^ rest.length :=
      ih (fun x hx => h x (List.mem_cons_of_mem b hx))
    show b + 256 * toNumLE rest < 256 ^ (rest.length + 1)
    rw [pow_succ]
    calc b + 256 * toNumLE rest < 256 * (toNumLE rest + 1) := by omega
      _ ≤ 256 * 256 ^ rest.length := Nat.mul_le_mul_left 256 (Nat.succ_le_of_lt hr)
      _ = 256 ^ rest.length * 256 := Nat.mul_comm _ _

/-- The in-place increment preserves the byte count. -/
theorem expandRev_length : ∀ l : List Nat, (expandRev l).length = l.length := by
  intro l
  induction l with
  | nil => rfl
  | cons b rest ih =>
    by_cases hb : (b + 1) % 256 > 0
    · simp [expandRev, hb]
    · simp [expandRev, hb, ih]

/-- On the reversed (little-endian) list, the expand helper adds one
modulo 256 to the power of the length. -/
theorem expandRev_toNumLE : ∀ l : List Nat, (∀ b ∈ l, b < 256) →
    toNumLE (expandRev l) = (toNumLE l + 1) % 256 ^ l.length := by
  intro l
  induction l with
  | nil => intro _; simp [expandRev, toNumLE]
  | cons b rest ih =>
    intro h
    have hb : b < 256 := h b (List.mem_cons_self b rest)
    have hrest : ∀ x ∈ rest, x < 256 := fun x hx => h x (List.mem_cons_of_mem b hx)
    have hr : toNumLE rest < 256 ^ rest.length := toNumLE_lt rest hrest
    by_cases h255 : b = 255
    · subst h255
      have hstep : expandRev (255 :: rest) = 0 :: expandRev rest := by
        show (let b' := (255 + 1) % 256; if b' > 0 then b' :: rest else b' :: expandRev rest)
          = 0 :: expandRev rest
        simp
      rw [hstep]
      have e1 : toNumLE (0 :: expandRev rest) = 256 * toNumLE (expandRev rest) := by
        simp [toNumLE]
      rw [e1, ih hrest]
      have e2 : toNumLE (255 :: rest) = 255 + 256 * toNumLE rest := rfl
      have e3 : (255 :: rest).length = rest.length + 1 := rfl
      rw [e2, e3, pow_succ]
      rw [show 255 + 256 * toNumLE rest + 1 = 256 * (toNumLE rest + 1) by ring]
      rw [Nat.mul_comm (256 ^ rest.length) 256, Nat.mul_mod_mul_left]
    · have hmod : (b + 1) % 256 = b + 1 := Nat.mod_eq_of_lt (by omega)
      have hstep : expandRev (b :: rest) = (b + 1) :: rest := by
        show (let b' := (b + 1) % 256; if b' > 0 then b' :: rest else b' :: expandRev rest)
          = (b + 1) :: rest
        simp only [hmod]
        rw [if_pos (Nat.succ_pos b)]
      rw [hstep]
      have e1 : toNumLE ((b + 1) :: rest) = (b + 1) + 256 * toNumLE rest := rfl
      have e2 : toNumLE (b :: rest) = b + 256 * toNumLE rest := rfl
      have e3 : (b :: rest).length = rest.length + 1 := rfl
      rw [e1, e2, e3]
      have hlt2 : b + 256 * toNumLE rest + 1 < 256 ^ (rest.length + 1) := by
        have h2 : toNumLE rest + 1 ≤ 256 ^ rest.length := Nat.succ_le_of_lt hr
        have h3 : 256 * (toNumLE rest + 1) ≤ 256 * 256 ^ rest.length :=
          Nat.mul_le_mul_left 256 h2
        have h4 : 256 ^ (rest.length + 1) = 256 * 256 ^ rest.length := by
          rw [pow_succ, Nat.mul_comm]
        omega
      rw [Nat.mod_eq_of_lt hlt2]
      omega

/-- Appending a byte to a little-endian list adds it at the top
position. -/
theorem toNumLE_append (xs : List Nat) (b : Nat) :
    toNumLE (xs ++ [b]) = toNumLE xs + 256 ^ xs.length * b := by
  induction xs with
  | nil => simp [toNumLE]
  | cons a as ih =>
    simp [toNumLE, ih, pow_succ]
    ring

/-- Big-endian value equals the little-endian value of the reversed
list. -/
theorem toNum_eq_reverse : ∀ l : List Nat, toNum l = toNumLE l.reverse := by
  intro l
  induction l with
  | nil => rfl
  | cons b rest ih =>
    rw [List.reverse_cons, toNumLE_append, ← ih, List.length_reverse]
    show b * 256 ^ rest.length + toNum rest = toNum rest + 256 ^ rest.length * b
    ring

/-- Claim C10 (confirmed).  For every non-empty byte slice with byte
values below 256, the expand helper of main.go lines 53-61 turns the
big-endian value v of the slice into (v + 1) modulo 256 to the power of
(8 times the length ... i.e. 256 to the power of the length), keeping
the length; in particular an all-0xFF input wraps to all zeros. -/
theorem expand_increments (ip : List Nat) (hne : ip ≠ []) (hb : ∀ b ∈ ip, b < 256) :
    (expand ip).length = ip.length ∧
    toNum (expand ip) = (toNum ip + 1) % 256 ^ ip.length := by
  constructor
  · show ((expandRev ip.reverse).reverse).length = ip.length
    rw [List.length_reverse, expandRev_length, List.length_reverse]
  · have hbr : ∀ b ∈ ip.reverse, b < 256 := fun b hbm => hb b (List.mem_reverse.mp hbm)
    have h1 : toNum (expand ip) = toNumLE (expandRev ip.reverse) := by
      rw [toNum_eq_reverse, expand, List.reverse_reverse]
    rw [h1, expandRev_toNumLE ip.reverse hbr, List.length_reverse, ← toNum_eq_reverse]

/-- Witness for C10: the all-0xFF slice wraps to all zeros, value 0. -/
theorem expand_increments_witness :
    (expand [255, 255, 255, 255]).length = ([255, 255, 255, 255] : List Nat).length ∧
    toNum (expand [255, 255, 255, 255])
      = (toNum [255, 255, 255, 255] + 1) % 256 ^ ([255, 255, 255, 255] : List Nat).length :=
  expand_increments [255, 255, 255, 255] (by decide) (by decide)

end ShellScan
